import Mathlib

set_option maxRecDepth 100000

/-!
Shallow embedding of `src/vertiport_model.py`, a Gurobi MILP script that
places vertiport components (FATO `F`, Stand `S`, Taxiway `T`, Terminal `P`)
on a 5×8 grid.  Binary Gurobi variables are embedded as `Bool`-valued
functions, continuous variables as `ℚ`-valued ones.  Gurobi's `addVar` /
`addVars` give every CONTINUOUS variable a default lower bound of `0` and no
upper bound; those default bounds are part of the feasible region and are
embedded explicitly in `Feasible`.
-/

namespace Vertiport

/-- A grid position `(row, column)`; the script uses pairs of ints. -/
abbrev Cell := ℕ × ℕ

/-- Grid rows (line 6 of the source). -/
def rows : ℕ := 5

/-- Grid columns (line 7). -/
def cols : ℕ := 8

/-- All grid positions (line 10). -/
def cells : Finset Cell := Finset.range rows ×ˢ Finset.range cols

/-- The component types `['F', 'S', 'T', 'P']` (line 13): FATO, Stand,
Taxiway, Terminal. -/
inductive Comp
  | F
  | S
  | T
  | P
deriving DecidableEq, Repr

/-- The component list in the source's declaration order (line 13). -/
def components : List Comp := [Comp.F, Comp.S, Comp.T, Comp.P]

/-- Cost of placing each component (line 16). -/
def cost : Comp → ℕ
  | Comp.F => 40000
  | Comp.S => 46000
  | Comp.T => 40000
  | Comp.P => 300000

/-- Maximum capacity per FATO (line 19). -/
def fato_capacity : ℕ := 30

/-- Maximum capacity per stand (line 20). -/
def stand_capacity : ℕ := 6

/-- Total budget (line 23). -/
def budget : ℕ := 2000000

/-- Big constant for constraints (line 26). -/
def M : ℕ := 1000

/-- Manhattan distance between two cells, as used by the adjacency test
`abs(a[0]-b[0]) + abs(a[1]-b[1])` on line 42. -/
def dist (a b : Cell) : ℕ := ((a.1 : ℤ) - b.1).natAbs + ((a.2 : ℤ) - b.2).natAbs

/-- The 4-neighbourhood of a cell, exactly as `get_neighbors` (lines 59-66):
up, down, left, right, clipped at the grid border. -/
def get_neighbors (i : Cell) : List Cell :=
  (if 0 < i.1 then [(i.1 - 1, i.2)] else []) ++
  (if i.1 < rows - 1 then [(i.1 + 1, i.2)] else []) ++
  (if 0 < i.2 then [(i.1, i.2 - 1)] else []) ++
  (if i.2 < cols - 1 then [(i.1, i.2 + 1)] else [])

/-- The index set of the flow variables (line 42): all ordered pairs of
cells at Manhattan distance exactly 1. -/
def flowPairs : Finset (Cell × Cell) :=
  (cells ×ˢ cells).filter (fun e => dist e.1 e.2 = 1)

/-- The offset square `dx, dy ∈ [-2..2]` used to build `close_cells`
(lines 80-81). -/
def offsets : List (ℤ × ℤ) :=
  ([-2, -1, 0, 1, 2] : List ℤ).flatMap (fun dx =>
    ([-2, -1, 0, 1, 2] : List ℤ).map (fun dy => (dx, dy)))

/-- The cells within Manhattan distance 2 of `i`, the cell itself excluded,
clipped to the grid — `close_cells` of lines 80-81. -/
def close_cells (i : Cell) : List Cell :=
  (offsets.filter (fun d =>
      decide (d.1.natAbs + d.2.natAbs ≤ 2 ∧
        0 ≤ (i.1 : ℤ) + d.1 ∧ (i.1 : ℤ) + d.1 < rows ∧
        0 ≤ (i.2 : ℤ) + d.2 ∧ (i.2 : ℤ) + d.2 < cols ∧
        ¬(d.1 = 0 ∧ d.2 = 0)))).map
    (fun d => (((i.1 : ℤ) + d.1).toNat, ((i.2 : ℤ) + d.2).toNat))

/-- The source of the flow network, the top-left corner (line 86). -/
def source : Cell := (0, 0)

/-- A valuation of every variable the script creates:
`place` (line 32, binary), `operations` (line 35, continuous),
`reachable` (line 38, binary), `flow_balance` (line 39, continuous) and
`flow` (line 42, continuous, read on the `flowPairs` index set). -/
structure Assignment where
  place : Cell → Comp → Bool
  operations : ℚ
  reachable : Cell → Bool
  flow_balance : Cell → ℚ
  flow : Cell → Cell → ℚ

/-- Numeric (0/1) value of a binary placement variable. -/
def placeQ (σ : Assignment) (i : Cell) (c : Comp) : ℚ :=
  if σ.place i c then 1 else 0

/-- Numeric (0/1) value of a binary reachability variable. -/
def reachQ (σ : Assignment) (i : Cell) : ℚ :=
  if σ.reachable i then 1 else 0

/-- `out_flow` of a cell (line 92): the sum of `flow[i, j]` over the flow
edges leaving `i`. -/
def outFlow (σ : Assignment) (i : Cell) : ℚ :=
  ∑ e ∈ flowPairs.filter (fun e => e.1 = i), σ.flow e.1 e.2

/-- `in_flow` of a cell (line 91): the sum of `flow[j, i]` over the flow
edges entering `i`. -/
def inFlow (σ : Assignment) (i : Cell) : ℚ :=
  ∑ e ∈ flowPairs.filter (fun e => e.2 = i), σ.flow e.1 e.2

/-- The feasible region of the model: the conjunction of every constraint
the script adds (lines 48-99) together with Gurobi's default variable
bounds (`lb = 0` for every CONTINUOUS variable; BINARY variables are the
`Bool` fields). -/
def Feasible (σ : Assignment) : Prop :=
  -- Gurobi default lower bounds of the continuous variables
  0 ≤ σ.operations ∧
  (∀ i ∈ cells, 0 ≤ σ.flow_balance i) ∧
  (∀ e ∈ flowPairs, 0 ≤ σ.flow e.1 e.2) ∧
  -- operations cannot exceed FATO or Stand capacity (lines 48-49)
  σ.operations ≤ ((fato_capacity : ℚ) / 2) * ∑ i ∈ cells, placeQ σ i Comp.F ∧
  σ.operations ≤ (stand_capacity : ℚ) * ∑ i ∈ cells, placeQ σ i Comp.S ∧
  -- total cost within the budget (line 52)
  (∑ i ∈ cells, (components.map (fun c => (cost c : ℚ) * placeQ σ i c)).sum)
    ≤ (budget : ℚ) ∧
  -- only one component per cell (lines 55-56)
  (∀ i ∈ cells, (components.map (fun c => placeQ σ i c)).sum ≤ 1) ∧
  -- F, S, P next to at least one taxiway (lines 69-73)
  (∀ i ∈ cells,
    placeQ σ i Comp.F ≤ ((get_neighbors i).map (fun n => placeQ σ n Comp.T)).sum) ∧
  (∀ i ∈ cells,
    placeQ σ i Comp.S ≤ ((get_neighbors i).map (fun n => placeQ σ n Comp.T)).sum) ∧
  (∀ i ∈ cells,
    placeQ σ i Comp.P ≤ ((get_neighbors i).map (fun n => placeQ σ n Comp.T)).sum) ∧
  -- no FATO on interior cells (lines 77-78)
  (∀ i ∈ cells,
    (0 < i.1 ∧ i.1 < rows - 1 ∧ 0 < i.2 ∧ i.2 < cols - 1) → placeQ σ i Comp.F = 0) ∧
  -- pad spacing big-constant constraints (lines 82-83)
  (∀ i ∈ cells, ∀ j ∈ close_cells i,
    placeQ σ j Comp.F ≤ (1 - placeQ σ i Comp.F) * (M : ℚ)) ∧
  -- the source is reachable (line 87)
  σ.reachable source = true ∧
  -- flow balance for connectivity (lines 90-95)
  (∀ i ∈ cells, σ.flow_balance i = outFlow σ i - inFlow σ i) ∧
  (∀ i ∈ cells, σ.flow_balance i ≤ (M : ℚ) * reachQ σ i) ∧
  (∀ i ∈ cells, -((M : ℚ) * reachQ σ i) ≤ σ.flow_balance i) ∧
  -- flow only through taxiways (lines 98-99)
  (∀ e ∈ flowPairs, σ.flow e.1 e.2 ≤ (M : ℚ) * placeQ σ e.1 Comp.T)

instance (σ : Assignment) : Decidable (Feasible σ) := by
  unfold Feasible
  infer_instance

/-- The all-empty assignment: nothing placed, no flow, zero operations,
only the source flagged reachable. -/
def emptyAssign : Assignment where
  place := fun _ _ => false
  operations := 0
  reachable := fun i => if i = source then true else false
  flow_balance := fun _ => 0
  flow := fun _ _ => 0

/-- A small feasible layout: a FATO at `(0,0)`, a taxiway at `(0,1)`, a
stand at `(0,2)`, six operations, zero flow. -/
def smallLayout : Assignment where
  place := fun i c =>
    if i = ((0 : ℕ), (0 : ℕ)) ∧ c = Comp.F then true
    else if i = ((0 : ℕ), (1 : ℕ)) ∧ c = Comp.T then true
    else if i = ((0 : ℕ), (2 : ℕ)) ∧ c = Comp.S then true
    else false
  operations := 6
  reachable := fun i => if i = source then true else false
  flow_balance := fun _ => 0
  flow := fun _ _ => 0

/-- A feasible assignment with an isolated island: a taxiway at `(4,7)`
and a stand at `(4,6)`, nowhere near the source `(0,0)`, zero flow. -/
def islandAssign : Assignment where
  place := fun i c =>
    if i = ((4 : ℕ), (7 : ℕ)) ∧ c = Comp.T then true
    else if i = ((4 : ℕ), (6 : ℕ)) ∧ c = Comp.S then true
    else false
  operations := 0
  reachable := fun i => if i = source then true else false
  flow_balance := fun _ => 0
  flow := fun _ _ => 0

lemma emptyAssign_feasible : Feasible emptyAssign := by
  with_unfolding_all decide

lemma smallLayout_feasible : Feasible smallLayout := by
  with_unfolding_all decide

lemma islandAssign_feasible : Feasible islandAssign := by
  with_unfolding_all decide

/-- Per-component cell count of the extracted layout (lines 110-114): the
number of cells whose binary placement variable for `c` reads above the 0.5
threshold, i.e. is `true`. -/
def count (σ : Assignment) (c : Comp) : ℕ :=
  (cells.filter (fun i => σ.place i c = true)).card

/-- The recomputed total cost of the extracted layout (line 124). -/
def used_money (σ : Assignment) : ℕ :=
  (components.map (fun c => cost c * count σ c)).sum

lemma indicator_sum_eq_filter_length {α : Type} (p : α → Bool) (l : List α) :
    (l.map (fun a => if p a then (1 : ℚ) else 0)).sum = ((l.filter p).length : ℚ) := by
  induction l with
  | nil => simp
  | cons a t ih =>
    by_cases h : p a = true
    · simp [List.filter_cons, h, ih]
      ring
    · simp [List.filter_cons, h, ih]

lemma count_cast (σ : Assignment) (c : Comp) :
    (count σ c : ℚ) = ∑ i ∈ cells, placeQ σ i c := by
  rw [count, Finset.card_filter]
  push_cast
  exact Finset.sum_congr rfl (fun i _ => by simp [placeQ])

lemma mem_flowPairs {a b : Cell} (ha : a ∈ cells) (hb : b ∈ cells)
    (hd : dist a b = 1) : (a, b) ∈ flowPairs :=
  Finset.mem_filter.mpr ⟨Finset.mem_product.mpr ⟨ha, hb⟩, hd⟩

lemma fst_mem_of_mem_flowPairs {e : Cell × Cell} (h : e ∈ flowPairs) :
    e.1 ∈ cells :=
  (Finset.mem_product.mp (Finset.mem_filter.mp h).1).1

lemma snd_mem_of_mem_flowPairs {e : Cell × Cell} (h : e ∈ flowPairs) :
    e.2 ∈ cells :=
  (Finset.mem_product.mp (Finset.mem_filter.mp h).1).2

lemma placeQ_nonneg (σ : Assignment) (i : Cell) (c : Comp) : 0 ≤ placeQ σ i c := by
  rw [placeQ]; split <;> norm_num

lemma placeQ_le_one (σ : Assignment) (i : Cell) (c : Comp) : placeQ σ i c ≤ 1 := by
  rw [placeQ]; split <;> norm_num

/-- C2: every flow variable — one for each ordered pair of grid-adjacent
cells (Manhattan distance 1) — has magnitude at most `M = 1000` in every
feasible assignment, and is exactly zero whenever the tail cell does not
hold a Taxiway (the gating constraint of line 99 together with the
variable's lower bound of 0). -/
theorem flow_vars_bounded_and_gated (σ : Assignment) (h : Feasible σ)
    (a b : Cell) (ha : a ∈ cells) (hb : b ∈ cells) (hd : dist a b = 1) :
    (a, b) ∈ flowPairs ∧ -(M : ℚ) ≤ σ.flow a b ∧ σ.flow a b ≤ (M : ℚ) ∧
      (σ.place a Comp.T = false → σ.flow a b = 0) := by
  obtain ⟨-, -, hfl0, -, -, -, -, -, -, -, -, -, -, -, -, -, hgate⟩ := h
  have he : (a, b) ∈ flowPairs := mem_flowPairs ha hb hd
  have h0 : 0 ≤ σ.flow a b := hfl0 (a, b) he
  have hg : σ.flow a b ≤ (M : ℚ) * placeQ σ a Comp.T := hgate (a, b) he
  have hM : (0 : ℚ) ≤ (M : ℚ) := by norm_num [M]
  refine ⟨he, by linarith, ?_, ?_⟩
  · have h1 : placeQ σ a Comp.T ≤ 1 := placeQ_le_one σ a Comp.T
    have : (M : ℚ) * placeQ σ a Comp.T ≤ (M : ℚ) * 1 :=
      mul_le_mul_of_nonneg_left h1 hM
    linarith
  · intro hfalse
    have hz : placeQ σ a Comp.T = 0 := by simp [placeQ, hfalse]
    rw [hz, mul_zero] at hg
    linarith

/-- C3: in every feasible assignment the net flow of every cell is exactly
zero, even for cells whose reachability flag is 1: each `flow_balance`
variable carries Gurobi's implicit lower bound of 0, and the net flows sum
to zero over the grid, so all of them are forced to 0. -/
theorem flow_balance_always_zero (σ : Assignment) (h : Feasible σ) :
    ∀ i ∈ cells, σ.flow_balance i = 0 ∧ outFlow σ i = inFlow σ i := by
  obtain ⟨-, hfb0, -, -, -, -, -, -, -, -, -, -, -, hbal, -, -, -⟩ := h
  have hsumout : ∑ i ∈ cells, outFlow σ i = ∑ e ∈ flowPairs, σ.flow e.1 e.2 := by
    unfold outFlow
    exact Finset.sum_fiberwise_of_maps_to
      (fun e he => fst_mem_of_mem_flowPairs he) (fun e => σ.flow e.1 e.2)
  have hsumin : ∑ i ∈ cells, inFlow σ i = ∑ e ∈ flowPairs, σ.flow e.1 e.2 := by
    unfold inFlow
    exact Finset.sum_fiberwise_of_maps_to
      (fun e he => snd_mem_of_mem_flowPairs he) (fun e => σ.flow e.1 e.2)
  have hsum : ∑ i ∈ cells, σ.flow_balance i = 0 := by
    rw [Finset.sum_congr rfl hbal, Finset.sum_sub_distrib, hsumout, hsumin,
      sub_self]
  intro i hi
  have hz : σ.flow_balance i = 0 :=
    (Finset.sum_eq_zero_iff_of_nonneg hfb0).mp hsum i hi
  refine ⟨hz, ?_⟩
  have hb := hbal i hi
  rw [hz] at hb
  linarith

/-- C4: in every feasible assignment the operations value is at most
`(fato_capacity / 2) × (number of FATO cells) = 15 × count F` and at most
`stand_capacity × (number of Stand cells) = 6 × count S` (lines 48-49). -/
theorem throughput_coupling (σ : Assignment) (h : Feasible σ) :
    σ.operations ≤ 15 * (count σ Comp.F : ℚ) ∧
      σ.operations ≤ 6 * (count σ Comp.S : ℚ) := by
  obtain ⟨-, -, -, hopF, hopS, -⟩ := h
  constructor
  · rw [count_cast]
    have h15 : ((fato_capacity : ℚ) / 2) = 15 := by norm_num [fato_capacity]
    rw [h15] at hopF
    exact hopF
  · rw [count_cast]
    have h6 : ((stand_capacity : ℚ)) = 6 := by norm_num [stand_capacity]
    rw [h6] at hopS
    exact hopS

lemma close_cells_complete :
    ∀ i ∈ cells, ∀ j ∈ cells, i ≠ j → dist i j ≤ 2 → j ∈ close_cells i := by
  decide

/-- C5: no two distinct cells at Manhattan distance 1 or 2 of each other
both hold a FATO in any feasible assignment — enforced by the pairwise
big-constant constraints of lines 82-83. -/
theorem pad_spacing (σ : Assignment) (h : Feasible σ)
    (i j : Cell) (hi : i ∈ cells) (hj : j ∈ cells)
    (hne : i ≠ j) (hd : dist i j ≤ 2) :
    ¬(σ.place i Comp.F = true ∧ σ.place j Comp.F = true) := by
  obtain ⟨-, -, -, -, -, -, -, -, -, -, -, hspc, -⟩ := h
  rintro ⟨hiF, hjF⟩
  have hmem : j ∈ close_cells i := close_cells_complete i hi j hj hne hd
  have hc := hspc i hi j hmem
  simp only [placeQ, hiF, hjF, if_pos] at hc
  norm_num at hc

lemma exists_taxiway_of_one_le_sum (σ : Assignment) (l : List Cell)
    (h : (1 : ℚ) ≤ (l.map (fun n => placeQ σ n Comp.T)).sum) :
    ∃ n ∈ l, σ.place n Comp.T = true := by
  have heq : (l.map (fun n => placeQ σ n Comp.T)).sum
      = (((l.filter (fun n => σ.place n Comp.T)).length : ℕ) : ℚ) := by
    simp only [placeQ]
    exact indicator_sum_eq_filter_length (fun n => σ.place n Comp.T) l
  rw [heq] at h
  have hlen : 1 ≤ (l.filter (fun n => σ.place n Comp.T)).length := by
    exact_mod_cast h
  obtain ⟨x, hx⟩ := List.exists_mem_of_ne_nil _
    (List.ne_nil_of_length_pos hlen)
  obtain ⟨hxl, hxp⟩ := List.mem_filter.mp hx
  exact ⟨x, hxl, hxp⟩

/-- C6: in every feasible assignment, every cell holding a FATO, Stand, or
Terminal has at least one 4-neighbour holding a Taxiway (lines 69-73). -/
theorem adjacency_to_taxiway (σ : Assignment) (h : Feasible σ)
    (i : Cell) (hi : i ∈ cells)
    (hc : σ.place i Comp.F = true ∨ σ.place i Comp.S = true ∨
      σ.place i Comp.P = true) :
    ∃ n ∈ get_neighbors i, σ.place n Comp.T = true := by
  obtain ⟨-, -, -, -, -, -, -, hadjF, hadjS, hadjP, -⟩ := h
  apply exists_taxiway_of_one_le_sum σ (get_neighbors i)
  rcases hc with hc | hc | hc
  · have := hadjF i hi
    rwa [placeQ, if_pos hc] at this
  · have := hadjS i hi
    rwa [placeQ, if_pos hc] at this
  · have := hadjP i hi
    rwa [placeQ, if_pos hc] at this

/-- C7: in every feasible assignment the per-cell sum of the four binary
placement variables is at most 1 (lines 55-56), and consequently the
extraction loop finds at most one component above the 0.5 threshold at any
cell. -/
theorem cell_exclusivity (σ : Assignment) (h : Feasible σ)
    (i : Cell) (hi : i ∈ cells) :
    (components.map (fun c => placeQ σ i c)).sum ≤ 1 ∧
      (components.filter (fun c => σ.place i c)).length ≤ 1 := by
  obtain ⟨-, -, -, -, -, -, hexcl, -⟩ := h
  have h1 := hexcl i hi
  refine ⟨h1, ?_⟩
  have heq : (components.map (fun c => placeQ σ i c)).sum
      = (((components.filter (fun c => σ.place i c)).length : ℕ) : ℚ) := by
    simp only [placeQ]
    exact indicator_sum_eq_filter_length (fun c => σ.place i c) components
  rw [heq] at h1
  exact_mod_cast h1

/-- C8: the total cost recomputed from the extracted per-type counts
(line 124) never exceeds the configured budget of 2,000,000 in any feasible
assignment, by the budget constraint of line 52. -/
theorem budget_law (σ : Assignment) (h : Feasible σ) :
    used_money σ ≤ budget := by
  obtain ⟨-, -, -, -, -, hbud, -⟩ := h
  have expand : ∀ i : Cell,
      (components.map (fun c => (cost c : ℚ) * placeQ σ i c)).sum
        = 40000 * placeQ σ i Comp.F + 46000 * placeQ σ i Comp.S +
          40000 * placeQ σ i Comp.T + 300000 * placeQ σ i Comp.P := by
    intro i
    simp [components, cost]
    ring
  have key : (used_money σ : ℚ) ≤ (budget : ℚ) := by
    calc (used_money σ : ℚ)
        = ∑ i ∈ cells, (components.map (fun c => (cost c : ℚ) * placeQ σ i c)).sum := by
          rw [Finset.sum_congr rfl (fun i _ => expand i),
            Finset.sum_add_distrib, Finset.sum_add_distrib, Finset.sum_add_distrib,
            ← Finset.mul_sum, ← Finset.mul_sum, ← Finset.mul_sum, ← Finset.mul_sum,
            ← count_cast, ← count_cast, ← count_cast, ← count_cast]
          simp [used_money, components, cost]
          ring
      _ ≤ (budget : ℚ) := hbud
  exact_mod_cast key

/-- One breadth step of taxiway reachability for a placement `p`: grow the
set `s` by every in-grid cell that holds a Taxiway and is grid-adjacent to
`s`.  This is the reachability notion the connectivity constraints of the
model are meant to certify: a walk from the source whose cells after the
source all hold Taxiways. -/
def reachStep (p : Cell → Comp → Bool) (s : Finset Cell) : Finset Cell :=
  s ∪ cells.filter (fun c => p c Comp.T = true ∧ ∃ a ∈ s, dist a c = 1)

/-- The set of cells reachable from the source through Taxiway cells:
iterating `reachStep` once per grid cell reaches a fixpoint. -/
def reachSet (p : Cell → Comp → Bool) : Finset Cell :=
  (reachStep p)^[rows * cols] {source}

/-- A cell is connected to the source through Taxiway cells when it lies in
the taxiway reach set of the source or is grid-adjacent to it (the final
step onto a component-bearing cell needs no Taxiway at that cell). -/
def connectedToSource (p : Cell → Comp → Bool) (c : Cell) : Prop :=
  c ∈ reachSet p ∨ ∃ n ∈ get_neighbors c, n ∈ reachSet p

instance (p : Cell → Comp → Bool) (c : Cell) :
    Decidable (connectedToSource p c) := by
  unfold connectedToSource
  infer_instance

/-- C1 fails on the code: `islandAssign` satisfies every constraint of the
model although its Stand at `(4,6)` (and the Taxiway at `(4,7)` serving it)
is nowhere near the source `(0,0)` through the taxiway subgraph.  The model
never links the reachability flags or the placements to actual
connectivity: every per-cell net-flow variable is forced to 0 by its
implicit lower bound, so the flow network certifies nothing and
disconnected islands of components are feasible. -/
theorem connectivity_not_certified :
    Feasible islandAssign ∧
      islandAssign.place (4, 6) Comp.S = true ∧
      ((4 : ℕ), (6 : ℕ)) ∈ cells ∧
      ¬ connectedToSource islandAssign.place (4, 6) := by
  refine ⟨islandAssign_feasible, by decide, by decide, by decide⟩

/-- Gurobi's terminal solve statuses relevant to the script: `GRB.OPTIMAL`
(checked on line 105) and the non-optimal outcomes. -/
inductive GRBStatus
  | OPTIMAL
  | INFEASIBLE
  | UNBOUNDED
  | TIME_LIMIT
deriving DecidableEq, Repr

/-- The artifact the post-solve block builds (lines 106-143): the grid of
labels, the per-type counts, the recomputed budget and the objective
value. -/
structure Layout where
  label : Cell → Option Comp
  counts : Comp → ℕ
  money : ℕ
  ops : ℚ

/-- The label the extraction loop (lines 110-114) leaves at cell `i`:
starting from empty, each component whose binary variable reads above the
0.5 threshold (that is, equals 1) overwrites the cell, in catalogue
order. -/
def extractLabel (σ : Assignment) (i : Cell) : Option Comp :=
  components.foldl (fun acc c => if σ.place i c then some c else acc) none

/-- The full layout extracted from a solved assignment (lines 106-125). -/
def layoutOf (σ : Assignment) : Layout :=
  ⟨fun i => extractLabel σ i, fun c => count σ c, used_money σ, σ.operations⟩

/-- The observable outcome of the post-solve code (lines 105-143): the
entire print/save block is guarded by `if model.status == GRB.OPTIMAL`
with no `else` branch, so any non-optimal status produces nothing at
all. -/
def programOutput (st : GRBStatus) (σ : Assignment) : Option Layout :=
  if st = GRBStatus.OPTIMAL then some (layoutOf σ) else none

/-- C9 counterexample: two distinct non-optimal failure kinds produce
identical, empty observable output — the script has no `else` branch, so
the failure kind is not signalled upward as a distinct status; the program
is simply silent. -/
theorem no_failure_signal :
    GRBStatus.INFEASIBLE ≠ GRBStatus.TIME_LIMIT ∧
      programOutput GRBStatus.INFEASIBLE emptyAssign
        = programOutput GRBStatus.TIME_LIMIT emptyAssign :=
  ⟨by decide, rfl⟩

/-- C9 as amended: whenever the solver status is anything other than
optimal the program produces no Layout — and no output of any kind; all
non-optimal statuses are treated identically (silence), with no distinct
failure signal. -/
theorem nonoptimal_produces_nothing (st : GRBStatus)
    (hst : st ≠ GRBStatus.OPTIMAL) (σ : Assignment) :
    programOutput st σ = none := by
  simp [programOutput, hst]

/-- Witness for `nonoptimal_produces_nothing` at the INFEASIBLE status. -/
theorem nonoptimal_produces_nothing_witness :
    programOutput GRBStatus.INFEASIBLE emptyAssign = none :=
  nonoptimal_produces_nothing GRBStatus.INFEASIBLE (by decide) emptyAssign

/-- Witness for `flow_vars_bounded_and_gated` on the edge from `(0,0)` to
`(0,1)` of the feasible assignment `smallLayout`. -/
theorem flow_vars_bounded_and_gated_witness :
    (((0 : ℕ), (0 : ℕ)), ((0 : ℕ), (1 : ℕ))) ∈ flowPairs ∧
      -(M : ℚ) ≤ smallLayout.flow (0, 0) (0, 1) ∧
      smallLayout.flow (0, 0) (0, 1) ≤ (M : ℚ) ∧
      (smallLayout.place (0, 0) Comp.T = false →
        smallLayout.flow (0, 0) (0, 1) = 0) :=
  flow_vars_bounded_and_gated smallLayout smallLayout_feasible
    (0, 0) (0, 1) (by decide) (by decide) (by decide)

/-- Witness for `flow_balance_always_zero` at the source cell of
`smallLayout`, whose reachability flag is 1. -/
theorem flow_balance_always_zero_witness :
    smallLayout.reachable (0, 0) = true ∧
      (smallLayout.flow_balance (0, 0) = 0 ∧
        outFlow smallLayout (0, 0) = inFlow smallLayout (0, 0)) :=
  ⟨by decide,
    flow_balance_always_zero smallLayout smallLayout_feasible (0, 0) (by decide)⟩

/-- Witness for `throughput_coupling` on `smallLayout` (one FATO, one
Stand, six operations). -/
theorem throughput_coupling_witness :
    smallLayout.operations ≤ 15 * (count smallLayout Comp.F : ℚ) ∧
      smallLayout.operations ≤ 6 * (count smallLayout Comp.S : ℚ) :=
  throughput_coupling smallLayout smallLayout_feasible

/-- Witness for `pad_spacing` on `smallLayout` at the neighbouring cells
`(0,0)` and `(0,1)`. -/
theorem pad_spacing_witness :
    ¬(smallLayout.place (0, 0) Comp.F = true ∧
      smallLayout.place (0, 1) Comp.F = true) :=
  pad_spacing smallLayout smallLayout_feasible (0, 0) (0, 1)
    (by decide) (by decide) (by decide) (by decide)

/-- Witness for `adjacency_to_taxiway` at the Stand cell `(0,2)` of
`smallLayout`, served by the Taxiway at `(0,1)`. -/
theorem adjacency_to_taxiway_witness :
    ∃ n ∈ get_neighbors (0, 2), smallLayout.place n Comp.T = true :=
  adjacency_to_taxiway smallLayout smallLayout_feasible (0, 2) (by decide)
    (Or.inr (Or.inl (by decide)))

/-- Witness for `cell_exclusivity` at the FATO cell `(0,0)` of
`smallLayout`. -/
theorem cell_exclusivity_witness :
    (components.map (fun c => placeQ smallLayout (0, 0) c)).sum ≤ 1 ∧
      (components.filter (fun c => smallLayout.place (0, 0) c)).length ≤ 1 :=
  cell_exclusivity smallLayout smallLayout_feasible (0, 0) (by decide)

/-- Witness for `budget_law` on `smallLayout` (126,000 of 2,000,000). -/
theorem budget_law_witness : used_money smallLayout ≤ budget :=
  budget_law smallLayout smallLayout_feasible

end Vertiport
